import Mathlib

/-!
# Verification of the Go server-log analyzer core

Shallow embedding of the log-processing pipeline
(`pkg/logprocessor/processor.go`) and the report aggregation engine
(`pkg/reporting/reporter.go`) of the
Go-Based-Server-Log-Analyzer-Reporting-Platform repository, together with
proofs settling the frozen claims about the specification.

Modelling conventions:
* Go `int`/`int64` values are Lean `Int` with explicit 64-bit range checks
  where the standard library performs them (`strconv.ParseInt`).
* Go `float64` quantities that the claims reason about only algebraically
  (percentages, rates, request times) are modelled as exact rationals `ℚ`.
* Fallible Go functions return `Option`/a result type; a Go runtime panic
  (index out of range) is modelled as an explicit `ParseResult.indexOutOfRange`
  outcome, distinct from a returned error.
* Strings are processed over `String.data` (`List Char`), matching Go's
  rune-wise iteration for the ASCII inputs the grammars deal with.
-/

set_option maxRecDepth 8192

namespace LogAnalyzer

/-! ## Go string primitives -/

/-- Whitespace as used by `strings.Fields` / `strings.TrimSpace`
(`unicode.IsSpace`), restricted to the ASCII range the log grammars use. -/
def isGoSpace (c : Char) : Bool :=
  c = ' ' || c = '\t' || c = '\n' || c = '\x0b' || c = '\x0c' || c = '\r'

/-- Model of `strings.TrimSpace`: remove leading and trailing whitespace. -/
def goTrimSpace (s : String) : String :=
  String.mk (((s.data.dropWhile isGoSpace).reverse.dropWhile isGoSpace).reverse)

/-- Model of `strings.Trim(s, cutset)`: remove all leading and trailing characters
belonging to `cut`. -/
def goTrimCutset (s : String) (cut : List Char) : String :=
  String.mk (((s.data.dropWhile (fun c => cut.contains c)).reverse.dropWhile
    (fun c => cut.contains c)).reverse)

/-- Helper for `goFields`: split a character list on whitespace runs;
`acc` holds the characters of the token currently being read. -/
def goFieldsAux : List Char → List Char → List String
  | [], acc => if acc.isEmpty then [] else [String.mk acc]
  | c :: cs, acc =>
    if isGoSpace c then
      if acc.isEmpty then goFieldsAux cs []
      else String.mk acc :: goFieldsAux cs []
    else goFieldsAux cs (acc ++ [c])

/-- Model of `strings.Fields`: the maximal non-whitespace runs of `s`, in order. -/
def goFields (s : String) : List String :=
  goFieldsAux s.data []

/-- Numeric value of a digit run (most significant first). -/
def digitsVal (ds : List Char) : Nat :=
  ds.foldl (fun n c => n * 10 + (c.toNat - 48)) 0

/-- Model of `strconv.ParseInt(s, 10, 64)`: optional sign, at least one digit,
nothing else, and the value must fit in a signed 64-bit integer. -/
def goParseInt64 (s : String) : Option Int :=
  let signAndDigits : Bool × List Char :=
    match s.data with
    | '+' :: rest => (false, rest)
    | '-' :: rest => (true, rest)
    | cs => (false, cs)
  let neg := signAndDigits.1
  let ds := signAndDigits.2
  if ds.isEmpty || !ds.all Char.isDigit then none
  else
    let n : Int := if neg then -(digitsVal ds : Int) else (digitsVal ds : Int)
    if -(2 ^ 63) ≤ n ∧ n ≤ 2 ^ 63 - 1 then some n else none

/-- Model of `strconv.Atoi` (64-bit platform): same as `ParseInt(s, 10, 64)`. -/
def goAtoi (s : String) : Option Int :=
  goParseInt64 s

/-- Model of `strconv.ParseBool`: exactly the twelve accepted literals. -/
def goParseBool (s : String) : Option Bool :=
  if s = "1" || s = "t" || s = "T" || s = "TRUE" || s = "true" || s = "True" then
    some true
  else if s = "0" || s = "f" || s = "F" || s = "FALSE" || s = "false" || s = "False" then
    some false
  else none

/-- Decimal-float syntax of `strconv.ParseFloat`, with the value kept exact
as a rational: optional sign, a mantissa `digits [. digits]` containing at
least one digit, and an optional exponent `e|E [sign] digits`.
(The hexadecimal, underscore and inf/NaN forms of `ParseFloat` are outside
the decimal grammar the log inputs use and are not modelled; no claim
exercises them.) -/
def goParseFloat (s : String) : Option ℚ :=
  let signAndRest : Bool × List Char :=
    match s.data with
    | '+' :: rest => (false, rest)
    | '-' :: rest => (true, rest)
    | cs => (false, cs)
  let neg := signAndRest.1
  let cs := signAndRest.2
  let intPart := cs.takeWhile Char.isDigit
  let afterInt := cs.dropWhile Char.isDigit
  let fracAndRest : List Char × List Char :=
    match afterInt with
    | '.' :: rest => (rest.takeWhile Char.isDigit, rest.dropWhile Char.isDigit)
    | rest => ([], rest)
  let fracPart := fracAndRest.1
  let afterFrac := fracAndRest.2
  if intPart.isEmpty ∧ fracPart.isEmpty then none
  else
    let mag : ℚ := (digitsVal (intPart ++ fracPart) : ℚ) / ((10 : ℚ) ^ fracPart.length)
    let base : ℚ := if neg then -mag else mag
    match afterFrac with
    | [] => some base
    | e :: rest =>
      if e = 'e' ∨ e = 'E' then
        let expSignAndDigits : Bool × List Char :=
          match rest with
          | '+' :: r => (false, r)
          | '-' :: r => (true, r)
          | r => (false, r)
        let eneg := expSignAndDigits.1
        let eds := expSignAndDigits.2
        if eds.isEmpty || !eds.all Char.isDigit then none
        else if (eds.dropWhile Char.isDigit).isEmpty then
          some (if eneg then base / (10 : ℚ) ^ digitsVal eds
                else base * (10 : ℚ) ^ digitsVal eds)
        else none
      else none

/-! ## Quote-aware tokenizer (`splitApacheLog` / `splitNginxLog`) -/

/-- State of the quote-aware splitter loop in `splitApacheLog`. -/
structure SplitState where
  parts : List String
  current : List Char
  inQuotes : Bool
  escapeNext : Bool

/-- One iteration of the character loop of `splitApacheLog`. -/
def splitStep (st : SplitState) (c : Char) : SplitState :=
  if st.escapeNext then
    { st with current := st.current ++ [c], escapeNext := false }
  else if c = '\\' then
    { st with escapeNext := true }
  else if c = '"' then
    { st with inQuotes := !st.inQuotes }
  else if c = ' ' && !st.inQuotes then
    if st.current.isEmpty then st
    else { st with parts := st.parts ++ [String.mk st.current], current := [] }
  else
    { st with current := st.current ++ [c] }

/-- Embedding of `splitApacheLog`: split on unquoted spaces, handling backslash escapes;
quote characters delimit one token and are dropped. -/
def splitApacheLog (line : String) : List String :=
  let st := line.data.foldl splitStep
    { parts := [], current := [], inQuotes := false, escapeNext := false }
  if st.current.isEmpty then st.parts else st.parts ++ [String.mk st.current]

/-- Embedding of `splitNginxLog`, which delegates to `splitApacheLog`. -/
def splitNginxLog (line : String) : List String :=
  splitApacheLog line

/-! ## Timestamps (`time.Parse` against the candidate layout lists) -/

/-- The components of a Go `time.Time` the analyzer observes: the parsed
calendar fields plus the fixed-zone offset (minutes).  Accessors like
`Hour` read the wall-clock field, which `time.Parse` always leaves inside
its calendar range. -/
structure Timestamp where
  year : Nat
  month : Nat
  day : Nat
  hour : Nat
  minute : Nat
  second : Nat
  offsetMin : Int
  deriving DecidableEq

/-- Model of `time.Time.Hour`: the clock hour, always in `0..23` (Go computes it as
the absolute hour modulo 24; the reduction is the identity on every value
`time.Parse` can produce). -/
def Timestamp.Hour (t : Timestamp) : Nat :=
  t.hour % 24

/-- Numeric value of one ASCII digit. -/
def digitVal (c : Char) : Nat :=
  c.toNat - 48

/-- Fixed two-digit number (zero-padded layout fields such as "02"). -/
def parse2Digits : List Char → Option (Nat × List Char)
  | c1 :: c2 :: rest =>
    if c1.isDigit && c2.isDigit then some (digitVal c1 * 10 + digitVal c2, rest)
    else none
  | _ => none

/-- One- or two-digit number (unpadded layout fields such as "15" or "2"):
Go's `getnum` takes two digits when two are available, else one. -/
def parse1or2Digits : List Char → Option (Nat × List Char)
  | [] => none
  | [c] => if c.isDigit then some (digitVal c, []) else none
  | c1 :: c2 :: rest =>
    if c1.isDigit then
      if c2.isDigit then some (digitVal c1 * 10 + digitVal c2, rest)
      else some (digitVal c1, c2 :: rest)
    else none

/-- Fixed four-digit number (the "2006" year field). -/
def parse4Digits : List Char → Option (Nat × List Char)
  | c1 :: c2 :: c3 :: c4 :: rest =>
    if c1.isDigit && c2.isDigit && c3.isDigit && c4.isDigit then
      some (digitVal c1 * 1000 + digitVal c2 * 100 + digitVal c3 * 10 + digitVal c4, rest)
    else none
  | _ => none

/-- Consume one expected literal character. -/
def litChar (c : Char) : List Char → Option (List Char)
  | d :: rest => if d = c then some rest else none
  | [] => none

/-- Consume an expected literal string. -/
def litStr (pat : String) (cs : List Char) : Option (List Char) :=
  if pat.data.isPrefixOf cs then some (cs.drop pat.data.length) else none

/-- Case-insensitive match of a pattern against a prefix of the input,
as Go's time-layout `match` does for month names. -/
def ciMatches : List Char → List Char → Option (List Char)
  | [], rest => some rest
  | _ :: _, [] => none
  | p :: ps, c :: rest =>
    if p.toLower = c.toLower then ciMatches ps rest else none

/-- The abbreviated month names of the "Jan" layout field. -/
def monthNames : List String :=
  ["Jan", "Feb", "Mar", "Apr", "May", "Jun",
   "Jul", "Aug", "Sep", "Oct", "Nov", "Dec"]

/-- Try each month abbreviation in order, returning the month number. -/
def matchMonthAux : List (Nat × String) → List Char → Option (Nat × List Char)
  | [], _ => none
  | (i, name) :: rest, cs =>
    match ciMatches name.data cs with
    | some r => some (i, r)
    | none => matchMonthAux rest cs

/-- Parse a "Jan"-style month name. -/
def matchMonth (cs : List Char) : Option (Nat × List Char) :=
  matchMonthAux (monthNames.enum.map (fun p => (p.1 + 1, p.2))) cs

/-- Gregorian leap-year rule, as `time.isLeap`. -/
def isLeapYear (y : Nat) : Bool :=
  y % 4 = 0 && (y % 100 ≠ 0 || y % 400 = 0)

/-- Days in a month, as `time.daysIn`. -/
def daysInMonth (y m : Nat) : Nat :=
  if m = 2 then (if isLeapYear y then 29 else 28)
  else if m = 4 ∨ m = 6 ∨ m = 9 ∨ m = 11 then 30
  else 31

/-- The calendar range checks `time.Parse` performs after reading the
fields: day within the month, hour below 24, minute and second below 60. -/
def validClockAndDay (year month day hour minute second : Nat) : Bool :=
  1 ≤ day && day ≤ daysInMonth year month &&
    hour ≤ 23 && minute ≤ 59 && second ≤ 59

/-- The "02/Jan/2006:15:04:05" date-time core shared by the Apache layouts. -/
def parseApacheDateTime (cs : List Char) : Option (Timestamp × List Char) := do
  let (day, cs) ← parse2Digits cs
  let cs ← litChar '/' cs
  let (month, cs) ← matchMonth cs
  let cs ← litChar '/' cs
  let (year, cs) ← parse4Digits cs
  let cs ← litChar ':' cs
  let (hour, cs) ← parse1or2Digits cs
  let cs ← litChar ':' cs
  let (minute, cs) ← parse2Digits cs
  let cs ← litChar ':' cs
  let (second, cs) ← parse2Digits cs
  if validClockAndDay year month day hour minute second then
    some ({ year := year, month := month, day := day, hour := hour,
            minute := minute, second := second, offsetMin := 0 }, cs)
  else none

/-- The numeric "-0700" zone field: a sign and four digits, giving an
offset in minutes. -/
def parseNumTZ (cs : List Char) : Option (Int × List Char) :=
  match cs with
  | s :: rest =>
    if s = '+' ∨ s = '-' then do
      let (zh, rest) ← parse2Digits rest
      let (zm, rest) ← parse2Digits rest
      let off : Int := (zh * 60 + zm : Nat)
      some ((if s = '-' then -off else off), rest)
    else none
  | [] => none

/-- Layout "02/Jan/2006:15:04:05 -0700". -/
def apacheLayoutNumTZ (cs : List Char) : Option Timestamp := do
  let (t, cs) ← parseApacheDateTime cs
  let cs ← litChar ' ' cs
  let (off, cs) ← parseNumTZ cs
  if cs.isEmpty then some { t with offsetMin := off } else none

/-- Layout "02/Jan/2006:15:04:05 +0700": "+0700" is not a layout verb, so
Go treats it as the literal text " +0700". -/
def apacheLayoutLiteralTZ (cs : List Char) : Option Timestamp := do
  let (t, cs) ← parseApacheDateTime cs
  if cs = [' ', '+', '0', '7', '0', '0'] then some t else none

/-- Layout "02/Jan/2006:15:04:05" (no zone). -/
def apacheLayoutNoTZ (cs : List Char) : Option Timestamp := do
  let (t, cs) ← parseApacheDateTime cs
  if cs.isEmpty then some t else none

/-- Embedding of `parseApacheTimestamp`: trim '[' and ']' and try the three candidate
layouts in order; the first success wins. -/
def parseApacheTimestamp (s : String) : Option Timestamp :=
  let cs := (goTrimCutset s ['[', ']']).data
  match apacheLayoutNumTZ cs with
  | some t => some t
  | none =>
    match apacheLayoutLiteralTZ cs with
    | some t => some t
    | none => apacheLayoutNoTZ cs

/-- Embedding of `parseNginxTimestamp`, which delegates to `parseApacheTimestamp`. -/
def parseNginxTimestamp (s : String) : Option Timestamp :=
  parseApacheTimestamp s

/-- The "2006-01-02" date core of the generic layouts (month range checked
like `time.Parse` does). -/
def parseIsoDate (cs : List Char) : Option (Nat × Nat × Nat × List Char) := do
  let (year, cs) ← parse4Digits cs
  let cs ← litChar '-' cs
  let (month, cs) ← parse2Digits cs
  let cs ← litChar '-' cs
  let (day, cs) ← parse2Digits cs
  if 1 ≤ month ∧ month ≤ 12 then some (year, month, day, cs) else none

/-- The "15:04:05" clock core of the generic layouts. -/
def parseClock (cs : List Char) : Option (Nat × Nat × Nat × List Char) := do
  let (hour, cs) ← parse1or2Digits cs
  let cs ← litChar ':' cs
  let (minute, cs) ← parse2Digits cs
  let cs ← litChar ':' cs
  let (second, cs) ← parse2Digits cs
  some (hour, minute, second, cs)

/-- Exactly three fractional-second digits (the ".000" layout field). -/
def parseFrac3 (cs : List Char) : Option (List Char) := do
  let cs ← litChar '.' cs
  match cs with
  | c1 :: c2 :: c3 :: rest =>
    if c1.isDigit && c2.isDigit && c3.isDigit then some rest else none
  | _ => none

/-- Build a generic-layout timestamp after its range checks. -/
def mkGenericTimestamp (year month day hour minute second : Nat) :
    Option Timestamp :=
  if validClockAndDay year month day hour minute second then
    some { year := year, month := month, day := day, hour := hour,
           minute := minute, second := second, offsetMin := 0 }
  else none

/-- Layout "2006-01-02 15:04:05". -/
def genericLayoutSpace (cs : List Char) : Option Timestamp := do
  let (year, month, day, cs) ← parseIsoDate cs
  let cs ← litChar ' ' cs
  let (hour, minute, second, cs) ← parseClock cs
  if cs.isEmpty then mkGenericTimestamp year month day hour minute second
  else none

/-- Layout "2006-01-02T15:04:05Z" (the trailing 'Z' is literal text). -/
def genericLayoutTZulu (cs : List Char) : Option Timestamp := do
  let (year, month, day, cs) ← parseIsoDate cs
  let cs ← litChar 'T' cs
  let (hour, minute, second, cs) ← parseClock cs
  let cs ← litChar 'Z' cs
  if cs.isEmpty then mkGenericTimestamp year month day hour minute second
  else none

/-- Layout "2006-01-02T15:04:05.000Z". -/
def genericLayoutTZuluFrac (cs : List Char) : Option Timestamp := do
  let (year, month, day, cs) ← parseIsoDate cs
  let cs ← litChar 'T' cs
  let (hour, minute, second, cs) ← parseClock cs
  let cs ← parseFrac3 cs
  let cs ← litChar 'Z' cs
  if cs.isEmpty then mkGenericTimestamp year month day hour minute second
  else none

/-- A three- or four-letter upper-case zone abbreviation (the "MST" layout
field; the full `parseTimeZone` special cases are not exercised by the
analyzer's inputs). -/
def parseZoneAbbr (cs : List Char) : Option (List Char) :=
  let abbr := cs.takeWhile Char.isUpper
  if abbr.length = 3 ∨ abbr.length = 4 then some (cs.drop abbr.length) else none

/-- Layout "Jan 2, 2006 at 3:04pm (MST)": twelve-hour clock with a
lower-case meridiem marker and a parenthesised zone abbreviation. -/
def genericLayoutLong (cs : List Char) : Option Timestamp := do
  let (month, cs) ← matchMonth cs
  let cs ← litChar ' ' cs
  let (day, cs) ← parse1or2Digits cs
  let cs ← litStr ", " cs
  let (year, cs) ← parse4Digits cs
  let cs ← litStr " at " cs
  let (hour12, cs) ← parse1or2Digits cs
  let cs ← litChar ':' cs
  let (minute, cs) ← parse2Digits cs
  let (isPm, cs) ←
    match litStr "pm" cs with
    | some r => some (true, r)
    | none =>
      match litStr "am" cs with
      | some r => some (false, r)
      | none => none
  let cs ← litStr " (" cs
  let cs ← parseZoneAbbr cs
  let cs ← litChar ')' cs
  if !cs.isEmpty then none
  else if 12 < hour12 then none
  else
    let hour := if isPm then (if hour12 < 12 then hour12 + 12 else hour12)
                else (if hour12 = 12 then 0 else hour12)
    mkGenericTimestamp year month day hour minute 0

/-- Layout "2006-01-02 15:04:05.000". -/
def genericLayoutSpaceFrac (cs : List Char) : Option Timestamp := do
  let (year, month, day, cs) ← parseIsoDate cs
  let cs ← litChar ' ' cs
  let (hour, minute, second, cs) ← parseClock cs
  let cs ← parseFrac3 cs
  if cs.isEmpty then mkGenericTimestamp year month day hour minute second
  else none

/-- Embedding of `parseGenericTimestamp`: try the five candidate layouts in the order
the source lists them; the first success wins. -/
def parseGenericTimestamp (s : String) : Option Timestamp :=
  let cs := s.data
  match genericLayoutSpace cs with
  | some t => some t
  | none =>
  match genericLayoutTZulu cs with
  | some t => some t
  | none =>
  match genericLayoutTZuluFrac cs with
  | some t => some t
  | none =>
  match genericLayoutLong cs with
  | some t => some t
  | none => genericLayoutSpaceFrac cs

/-! ## IP validation (`net.ParseIP`) -/

/-- One decimal field of a dotted quad, per Go `net.parseIPv4`: at least
one digit, value at most 255, and (Go 1.17+) no multi-digit field may
start with '0'. -/
def parseOctet (cs : List Char) : Option (Nat × List Char) :=
  let ds := cs.takeWhile Char.isDigit
  let rest := cs.dropWhile Char.isDigit
  if ds.isEmpty then none
  else if 1 < ds.length ∧ ds.headD '0' = '0' then none
  else if 255 < digitsVal ds then none
  else some (digitsVal ds, rest)

/-- The IPv4 branch of `net.ParseIP`: four octets separated by '.', with
nothing left over. -/
def parseIPv4 (s : String) : Bool :=
  (do
    let (_, cs) ← parseOctet s.data
    let cs ← litChar '.' cs
    let (_, cs) ← parseOctet cs
    let cs ← litChar '.' cs
    let (_, cs) ← parseOctet cs
    let cs ← litChar '.' cs
    let (_, cs) ← parseOctet cs
    if cs.isEmpty then some () else none).isSome

/-- Hexadecimal digit. -/
def isHexDigit (c : Char) : Bool :=
  c.isDigit || ('a' ≤ c ∧ c ≤ 'f') || ('A' ≤ c ∧ c ≤ 'F')

/-- A 16-bit IPv6 group: one to four hexadecimal digits. -/
def validHexGroup (g : String) : Bool :=
  !g.isEmpty && g.length ≤ 4 && g.data.all isHexDigit

/-- Split a character list on a separator character (semantics of
`strings.Split` with a one-character separator). -/
def splitChar (sep : Char) : List Char → List Char → List String
  | [], acc => [String.mk acc]
  | c :: cs, acc =>
    if c = sep then String.mk acc :: splitChar sep cs []
    else splitChar sep cs (acc ++ [c])

/-- Split a character list on the two-character separator "::", leftmost
and non-overlapping (semantics of `strings.Split` with "::"). -/
def splitDoubleColon : List Char → List Char → List String
  | [], acc => [String.mk acc]
  | ':' :: ':' :: cs, acc => String.mk acc :: splitDoubleColon cs []
  | c :: cs, acc => splitDoubleColon cs (acc ++ [c])

/-- The ':'-separated chunks of one side of a '::' elision. -/
def v6Chunks (s : String) : List String :=
  if s.isEmpty then [] else splitChar ':' s.data []

/-- Number of 16-bit groups a chunk list stands for: each hexadecimal
group counts one, a trailing embedded dotted quad counts two; `none` when
some chunk is invalid. -/
def v6GroupsValid : List String → Option Nat
  | [] => some 0
  | [g] =>
    if validHexGroup g then some 1
    else if parseIPv4 g then some 2
    else none
  | g :: rest =>
    if validHexGroup g then (v6GroupsValid rest).map (· + 1) else none

/-- Simplified model of the IPv6 branch of `net.ParseIP`: hexadecimal
groups separated by ':', at most one '::' elision, eight groups without an
elision and at most seven with one, and an optional trailing embedded
dotted quad.  Zone suffixes and the parser's other corner cases are not
modelled; no claim exercises the IPv6 branch. -/
def parseIPv6 (s : String) : Bool :=
  match splitDoubleColon s.data [] with
  | [whole] =>
    match v6GroupsValid (v6Chunks whole) with
    | some 8 => true
    | _ => false
  | [l, r] =>
    match v6GroupsValid (v6Chunks l), v6GroupsValid (v6Chunks r) with
    | some a, some b => a + b ≤ 7
    | _, _ => false
  | _ => false

/-- Embedding of `isValidIP`, via `net.ParseIP`: dispatch on the first '.' or ':' of
the string to the IPv4 or IPv6 textual grammar. -/
def isValidIP (s : String) : Bool :=
  match s.data.find? (fun c => c = '.' || c = ':') with
  | some c => if c = '.' then parseIPv4 s else parseIPv6 s
  | none => false

/-! ## Metadata extraction (`extractKeyValuePairs`) -/

/-- The `\w` class of Go's regexp: ASCII letters, digits and underscore. -/
def isWordChar (c : Char) : Bool :=
  c.isAlphanum || c = '_'

/-- The raw submatches of the regular expression `(\w+)=([^\s]+)` over a
message, leftmost-first and non-overlapping as `FindAllStringSubmatch`
produces them.  Because `\w` and '=' are disjoint classes, a failed
attempt at the start of a word run also fails at every later start inside
the same run, so scanning one character at a time is equivalent; the fuel
argument (always the input length) merely bounds that traversal, since
every recursive call consumes at least one character. -/
def kvScanAux : Nat → List Char → List (String × String)
  | 0, _ => []
  | _, [] => []
  | fuel + 1, c :: cs =>
    if isWordChar c then
      let afterKey := cs.dropWhile isWordChar
      match afterKey with
      | '=' :: v :: vs =>
        if isGoSpace v then kvScanAux fuel cs
        else
          (String.mk (c :: cs.takeWhile isWordChar),
            String.mk (v :: vs.takeWhile (fun d => !isGoSpace d))) ::
            kvScanAux fuel (vs.dropWhile (fun d => !isGoSpace d))
      | _ => kvScanAux fuel cs
    else kvScanAux fuel cs

/-- One value coercion of `extractKeyValuePairs`: integer first, then
float, then boolean, otherwise the string itself. -/
inductive MetaValue where
  | intVal (i : Int)
  | floatVal (q : ℚ)
  | boolVal (b : Bool)
  | strVal (s : String)
  deriving DecidableEq

/-- The coercion chain applied to each extracted value. -/
def coerceValue (value : String) : MetaValue :=
  match goAtoi value with
  | some i => .intVal i
  | none =>
    match goParseFloat value with
    | some q => .floatVal q
    | none =>
      match goParseBool value with
      | some b => .boolVal b
      | none => .strVal value

/-- Embedding of `models.LogMetadata` (`package models` in the sources):
a Go `map[string]interface{}`, materialized as an association list in
insertion order, the dynamic values restricted to the four types
`extractKeyValuePairs` ever stores (`MetaValue`).  The `driver.Valuer` /
`sql.Scanner` methods on it are database-serialization plumbing with no
algorithmic content and are not modelled. -/
abbrev LogMetadata := List (String × MetaValue)

/-- Go map store `metadata[key] = v`: replace an existing binding, else
append a new one. -/
def metaStore (m : LogMetadata) (k : String) (v : MetaValue) : LogMetadata :=
  if m.any (fun p => p.1 = k) then
    m.map (fun p => if p.1 = k then (k, v) else p)
  else m ++ [(k, v)]

/-- Go map lookup `metadata[key]`. -/
def metaLookup (m : LogMetadata) (k : String) : Option MetaValue :=
  (m.find? (fun p => p.1 = k)).map (fun p => p.2)

/-- Embedding of `extractKeyValuePairs`: every `(\w+)=([^\s]+)` match of the message,
each value coerced by `coerceValue`, stored into the metadata map. -/
def extractKeyValuePairs (message : String) : LogMetadata :=
  (kvScanAux message.data.length message.data).foldl
    (fun m kv => metaStore m kv.1 (coerceValue kv.2)) []

/-! ## The log entry record and the three parsers -/

/-- Embedding of the `models.LogEntry` struct (`package models` in the
sources), fields in source order.  `ID` is the Go `int64` database
identity, which no parser assigns (it stays at its zero value until the
storage layer fills it); `StatusCode` is the Go `int`, `ResponseSize` the
Go `int64`, both as `Int`; `ProcessingTime` (`float64`) is kept exact as
a rational; the `time.Time` fields are `Timestamp`; the json/db struct
tags are serialization metadata with no behavior. -/
structure LogEntry where
  ID : Int
  Timestamp : Timestamp
  LogType : String
  SourceIP : String
  Method : String
  Path : String
  StatusCode : Int
  ResponseSize : Int
  UserAgent : String
  Referer : String
  ProcessingTime : ℚ
  RawLog : String
  Metadata : LogMetadata
  CreatedAt : LogAnalyzer.Timestamp
  UpdatedAt : LogAnalyzer.Timestamp
  deriving DecidableEq

/-- Outcome of one parser invocation: a constructed entry, a returned Go
error (by its message), or a Go runtime panic caused by an out-of-range
slice index. -/
inductive ParseResult where
  | ok (entry : LogEntry)
  | fail (msg : String)
  | indexOutOfRange
  deriving DecidableEq

/-- The entry of a successful result. -/
def ParseResult.entry? : ParseResult → Option LogEntry
  | .ok e => some e
  | _ => none

/-- The message of a returned error. -/
def ParseResult.errMsg? : ParseResult → Option String
  | .fail m => some m
  | _ => none

/-- A Go slice read `parts[i]`: continue with the element when the index
is in range, otherwise the program panics. -/
def getTok (parts : List String) (i : Nat) (k : String → ParseResult) : ParseResult :=
  match parts.get? i with
  | none => .indexOutOfRange
  | some t => k t

/-- Embedding of `parseApacheLog`.  Every slice read of the source appears as a checked
`getTok` access; note the source validates `len(parts) >= 9` but reads up
to `parts[9]`.  `now` is the construction wall clock: the source's
successive `time.Now()` calls for the `CreatedAt`/`UpdatedAt` bookkeeping
fields are modelled by one ingestion instant (no claim observes them). -/
def parseApacheLog (now : Timestamp) (line : String) : ParseResult :=
  let parts := splitApacheLog line
  if parts.length < 9 then
    .fail ("invalid Apache log format: expected at least 9 parts, got " ++
      toString parts.length)
  else
    getTok parts 0 fun ip =>
    if !isValidIP ip then .fail ("invalid IP address: " ++ ip)
    else
    getTok parts 3 fun p3 =>
    getTok parts 4 fun p4 =>
    match parseApacheTimestamp (p3 ++ " " ++ p4) with
    | none =>
      .fail ("invalid timestamp: unable to parse timestamp: " ++
        goTrimCutset (p3 ++ " " ++ p4) ['[', ']'])
    | some timestamp =>
    getTok parts 5 fun p5 =>
    let requestParts := goFields p5
    if requestParts.length < 2 then .fail ("invalid request format: " ++ p5)
    else
    getTok requestParts 0 fun method =>
    getTok requestParts 1 fun path =>
    getTok parts 6 fun p6 =>
    match goAtoi p6 with
    | none => .fail ("invalid status code: " ++ p6)
    | some statusCode =>
    getTok parts 7 fun p7 =>
    let responseSize := (goParseInt64 p7).getD 0
    getTok parts 8 fun p8 =>
    let referer := goTrimCutset p8 ['"']
    getTok parts 9 fun p9 =>
    let userAgent := goTrimCutset p9 ['"']
    .ok { ID := 0, Timestamp := timestamp, LogType := "apache", SourceIP := ip,
          Method := method, Path := path, StatusCode := statusCode,
          ResponseSize := responseSize, UserAgent := userAgent,
          Referer := referer, ProcessingTime := 0, RawLog := line,
          Metadata := [], CreatedAt := now, UpdatedAt := now }

/-- Embedding of `parseNginxLog`: the Apache flow plus the optional trailing
request-time token, read only under the `len(parts) > 10` guard and
defaulting to 0 when absent or unparseable; `now` is the construction
wall clock as in `parseApacheLog`. -/
def parseNginxLog (now : Timestamp) (line : String) : ParseResult :=
  let parts := splitNginxLog line
  if parts.length < 9 then
    .fail ("invalid Nginx log format: expected at least 9 parts, got " ++
      toString parts.length)
  else
    getTok parts 0 fun ip =>
    if !isValidIP ip then .fail ("invalid IP address: " ++ ip)
    else
    getTok parts 3 fun p3 =>
    getTok parts 4 fun p4 =>
    match parseNginxTimestamp (p3 ++ " " ++ p4) with
    | none =>
      .fail ("invalid timestamp: unable to parse timestamp: " ++
        goTrimCutset (p3 ++ " " ++ p4) ['[', ']'])
    | some timestamp =>
    getTok parts 5 fun p5 =>
    let requestParts := goFields p5
    if requestParts.length < 2 then .fail ("invalid request format: " ++ p5)
    else
    getTok requestParts 0 fun method =>
    getTok requestParts 1 fun path =>
    getTok parts 6 fun p6 =>
    match goAtoi p6 with
    | none => .fail ("invalid status code: " ++ p6)
    | some statusCode =>
    getTok parts 7 fun p7 =>
    let responseSize := (goParseInt64 p7).getD 0
    getTok parts 8 fun p8 =>
    let referer := goTrimCutset p8 ['"']
    getTok parts 9 fun p9 =>
    let userAgent := goTrimCutset p9 ['"']
    let processingTime : ℚ :=
      if 10 < parts.length then (goParseFloat (parts.getD 10 "")).getD 0 else 0
    .ok { ID := 0, Timestamp := timestamp, LogType := "nginx", SourceIP := ip,
          Method := method, Path := path, StatusCode := statusCode,
          ResponseSize := responseSize, UserAgent := userAgent,
          Referer := referer, ProcessingTime := processingTime, RawLog := line,
          Metadata := [], CreatedAt := now, UpdatedAt := now }

/-- Embedding of `parseGenericLog`: whitespace fields `<date> <time> <LEVEL> <message…>`;
an unparseable timestamp falls back to the ingestion wall clock `now`.
The message (fields from the fourth onward joined by single spaces) is
stored in the `Path` field; the remaining request fields keep their Go
zero values. -/
def parseGenericLog (now : Timestamp) (line : String) : ParseResult :=
  let parts := goFields line
  if parts.length < 3 then
    .fail ("invalid generic log format: expected at least 3 parts, got " ++
      toString parts.length)
  else
    let timestamp :=
      match parseGenericTimestamp (parts.getD 0 "" ++ " " ++ parts.getD 1 "") with
      | some t => t
      | none => now
    let message := " ".intercalate (parts.drop 3)
    let metadata := extractKeyValuePairs message
    .ok { ID := 0, Timestamp := timestamp, LogType := "generic", SourceIP := "",
          Method := "", Path := message, StatusCode := 0, ResponseSize := 0,
          UserAgent := "", Referer := "", ProcessingTime := 0, RawLog := line,
          Metadata := metadata, CreatedAt := now, UpdatedAt := now }

/-- Embedding of `parseLogLine`: dispatch on the format tag; an unsupported tag is a
per-line error naming the tag. -/
def parseLogLine (now : Timestamp) (line logType : String) : ParseResult :=
  match logType with
  | "apache" => parseApacheLog now line
  | "nginx" => parseNginxLog now line
  | "generic" => parseGenericLog now line
  | _ => .fail ("unsupported log type: " ++ logType)

/-- The valid Apache scenario line of spec §8 and the test fixtures. -/
def apacheScenarioLine : String :=
  "192.168.1.100 - - [10/Oct/2023:13:55:36 +0000] \"GET /api/users HTTP/1.1\" 200 1234 \"https://example.com\" \"Mozilla/5.0\""

/-- The generic scenario line of spec §8. -/
def genericScenarioLine : String :=
  "2023-10-10 13:55:38 INFO User login successful user_id=12345 ip=192.168.1.102"

/-- A well-formed Apache line with exactly nine tokens (the user-agent
field absent): it passes every validation of `parseApacheLog` up to the
`parts[9]` read. -/
def apacheNineTokenLine : String :=
  "192.168.1.100 - - [10/Oct/2023:13:55:36 +0000] \"GET /api/users HTTP/1.1\" 200 1234 \"https://example.com\""

/-! ## Statistics aggregator (`ProcessingStats`) -/

/-- The counters of `ProcessingStats` (the immutable `StartTime` set at
construction is omitted; nothing ever writes it). -/
structure StatsState where
  TotalProcessed : Int
  ApacheProcessed : Int
  NginxProcessed : Int
  GenericProcessed : Int
  Errors : Int
  deriving DecidableEq

/-- The zeroed counters `NewProcessor` starts from. -/
def initialStats : StatsState :=
  { TotalProcessed := 0, ApacheProcessed := 0, NginxProcessed := 0,
    GenericProcessed := 0, Errors := 0 }

/-- Embedding of `incrementProcessed`: one critical section under the stats mutex — the
total and the matching per-type bucket move together; a type outside the
three known tags moves only the total (the switch has no default arm). -/
def incrementProcessed (s : StatsState) (logType : String) : StatsState :=
  let s := { s with TotalProcessed := s.TotalProcessed + 1 }
  match logType with
  | "apache" => { s with ApacheProcessed := s.ApacheProcessed + 1 }
  | "nginx" => { s with NginxProcessed := s.NginxProcessed + 1 }
  | "generic" => { s with GenericProcessed := s.GenericProcessed + 1 }
  | _ => s

/-- Embedding of `incrementErrors`: touches only the `Errors` counter. -/
def incrementErrors (s : StatsState) : StatsState :=
  { s with Errors := s.Errors + 1 }

/-- Embedding of `GetStats`: a field-by-field copy taken under the read lock. -/
def GetStats (s : StatsState) : StatsState :=
  { TotalProcessed := s.TotalProcessed, ApacheProcessed := s.ApacheProcessed,
    NginxProcessed := s.NginxProcessed,
    GenericProcessed := s.GenericProcessed, Errors := s.Errors }

/-- One atomic counter update.  Every Go increment runs inside one mutex
critical section and every read takes the same lock, so a concurrent
history of the aggregator linearizes into a sequence of these events, and
any snapshot a reader can observe is the fold of such a sequence — a torn
state (total moved without its bucket) never lies between events. -/
inductive StatEvent where
  | processed (logType : String)
  | errored
  deriving DecidableEq

/-- Apply one atomic counter update. -/
def statsStep (s : StatsState) (e : StatEvent) : StatsState :=
  match e with
  | .processed ty => incrementProcessed s ty
  | .errored => incrementErrors s

/-- The counter state after a history of atomic updates. -/
def runStats (events : List StatEvent) : StatsState :=
  events.foldl statsStep initialStats

/-! ## `ProcessFile` (the ingestion pipeline) -/

/-- The observable outcome of one `ProcessFile` call: the entries
delivered to the output channel, the annotated per-line errors (line
number and underlying cause, as composed by `fmt.Errorf("line %d: %w")`)
delivered to the error channel, the final counters, whether a worker's
parse panicked (crashing the program), and the call's return value
(`none` models a nil error).  Channels are modelled by the values
delivered to them; the claims under proof are order- and
capacity-insensitive. -/
structure PFOutcome where
  entries : List LogEntry
  errors : List (Nat × String)
  stats : StatsState
  panicked : Bool
  result : Option String
  deriving DecidableEq

/-- The worker body dispatched per line: parse, then either record the
annotated error and bump the error counter, or deliver the entry and bump
the processed counters. -/
def processLine (now : Timestamp) (logType line : String) (lineNum : Nat)
    (st : PFOutcome) : PFOutcome :=
  match parseLogLine now line logType with
  | .fail msg =>
    { st with errors := st.errors ++ [(lineNum, msg)],
              stats := incrementErrors st.stats }
  | .indexOutOfRange => { st with panicked := true }
  | .ok e =>
    { st with entries := st.entries ++ [e],
              stats := incrementProcessed st.stats logType }

/-- The scan loop of `ProcessFile`: lines that are blank after trimming
are skipped without consuming a number; `lineCount` numbers the dispatched
lines from 1.  An unrecovered panic in any worker crashes the whole
program, so the outcome freezes at the first panicking line. -/
def processLoop (now : Timestamp) (logType : String) :
    List String → Nat → PFOutcome → PFOutcome
  | [], _, st => st
  | line :: rest, lineCount, st =>
    if st.panicked then st
    else if goTrimSpace line = "" then processLoop now logType rest lineCount st
    else
      processLoop now logType rest (lineCount + 1)
        (processLine now logType line (lineCount + 1) st)

/-- Embedding of `ProcessFile` on a stream that delivers `lines` and then ends with
`readErr` (`none` for clean EOF): every delivered line is dispatched, the
join barrier waits for all workers, and only a stream-level read failure
becomes the return value. -/
def ProcessFile (now : Timestamp) (lines : List String)
    (readErr : Option String) (logType : String) : PFOutcome :=
  let st := processLoop now logType lines 0
    { entries := [], errors := [], stats := initialStats, panicked := false,
      result := none }
  { st with result := readErr.map (fun e => "error reading file: " ++ e) }

/-! ## Report aggregation (`pkg/reporting`) -/

/-- One ranked path with its share of the retained subset. -/
structure PathSummary where
  Path : String
  Count : Int
  Percentage : ℚ
  deriving DecidableEq

/-- One ranked source IP with its share of the retained subset. -/
structure IPSummary where
  IP : String
  Count : Int
  Percentage : ℚ
  deriving DecidableEq

/-- One hourly bucket. -/
structure HourlyTraffic where
  Hour : Nat
  Count : Int
  deriving DecidableEq

/-- Go `counts[key]++` on a materialized `map[κ]int64` (keys unique by
construction): bump the binding of `k` if present, else insert it with
count 1. -/
def bumpKey {κ : Type} [DecidableEq κ] : List (κ × Int) → κ → List (κ × Int)
  | [], k => [(k, 1)]
  | p :: m, k => if p.1 = k then (p.1, p.2 + 1) :: m else p :: bumpKey m k

/-- The count map a `for … { counts[key]++ }` loop builds. -/
def countsOf {κ : Type} [DecidableEq κ] (keys : List κ) : List (κ × Int) :=
  keys.foldl bumpKey []

/-- Go map read with missing-key default 0 (`hourlyCounts[hour]`). -/
def lookupCount {κ : Type} [DecidableEq κ] : List (κ × Int) → κ → Int
  | [], _ => 0
  | p :: m, k => if p.1 = k then p.2 else lookupCount m k

/-- The ordering `sort.Slice(items, Count[i] > Count[j])` establishes on
paths: counts descending.  The unstable sort contracts only this ordering
(ties land arbitrarily); descending insertion sort is one admissible
execution of it. -/
def pathCountGE (a b : PathSummary) : Prop :=
  b.Count ≤ a.Count

instance : DecidableRel pathCountGE := fun a b => Int.decLe b.Count a.Count

instance : IsTotal PathSummary pathCountGE :=
  ⟨fun a b => le_total b.Count a.Count⟩

instance : IsTrans PathSummary pathCountGE :=
  ⟨fun _ _ _ hab hbc => le_trans hbc hab⟩

/-- Sort paths by count descending. -/
def sortPathsDesc (l : List PathSummary) : List PathSummary :=
  List.insertionSort pathCountGE l

/-- The same descending-count ordering on IP summaries. -/
def ipCountGE (a b : IPSummary) : Prop :=
  b.Count ≤ a.Count

instance : DecidableRel ipCountGE := fun a b => Int.decLe b.Count a.Count

instance : IsTotal IPSummary ipCountGE :=
  ⟨fun a b => le_total b.Count a.Count⟩

instance : IsTrans IPSummary ipCountGE :=
  ⟨fun _ _ _ hab hbc => le_trans hbc hab⟩

/-- Sort IP summaries by count descending. -/
def sortIPsDesc (l : List IPSummary) : List IPSummary :=
  List.insertionSort ipCountGE l

/-- Embedding of `getTopItems`: materialize the count map, sort by count descending,
keep at most `n` items, then set each retained item's percentage relative
to the sum of the retained subset (a positive-total guard leaves the zero
percentages in place otherwise). -/
def getTopItems (counts : List (String × Int)) (n : Nat) : List PathSummary :=
  let items := counts.map
    (fun p => { Path := p.1, Count := p.2, Percentage := 0 : PathSummary })
  let top := (sortPathsDesc items).take n
  let total : Int := (top.map (fun it => it.Count)).sum
  top.map (fun it =>
    if 0 < total then
      { it with Percentage := (it.Count : ℚ) / (total : ℚ) * 100 }
    else it)

/-- Embedding of `getTopIPs`: identical flow over IP summaries. -/
def getTopIPs (counts : List (String × Int)) (n : Nat) : List IPSummary :=
  let items := counts.map
    (fun p => { IP := p.1, Count := p.2, Percentage := 0 : IPSummary })
  let top := (sortIPsDesc items).take n
  let total : Int := (top.map (fun it => it.Count)).sum
  top.map (fun it =>
    if 0 < total then
      { it with Percentage := (it.Count : ℚ) / (total : ℚ) * 100 }
    else it)

/-- Embedding of `getHourlyTraffic`: count entries per clock hour into a map, then emit
the buckets for hours 0–23 in ascending order, reading absent hours as 0. -/
def getHourlyTraffic (entries : List LogEntry) : List HourlyTraffic :=
  let hourlyCounts := countsOf (entries.map (fun e => e.Timestamp.Hour))
  (List.range 24).map
    (fun hour => { Hour := hour, Count := lookupCount hourlyCounts hour })

/-- The `ReportSummary` record. -/
structure ReportSummary where
  TotalRequests : Int
  UniqueIPs : Int
  AvgResponseTime : ℚ
  ErrorRate : ℚ
  TopPaths : List PathSummary
  TopIPs : List IPSummary
  StatusCodeBreakdown : List (String × Int)
  HourlyTraffic : List HourlyTraffic

/-- Embedding of `prepareSummary` as a pure function of the materialized entry
collection (no other part of `ReportData` feeds the summary): totals,
unique IPs, the positive-only mean of processing times, the error rate
guarded by `total > 0`, both top-10 rankings, the full status-code
frequency map, and the hourly histogram. -/
def prepareSummary (entries : List LogEntry) : ReportSummary :=
  let ipCounts := countsOf (entries.map (fun e => e.SourceIP))
  let timeAcc := entries.foldl
    (fun acc e =>
      if 0 < e.ProcessingTime then (acc.1 + e.ProcessingTime, acc.2 + 1)
      else acc)
    ((0 : ℚ), (0 : Nat))
  let errorCount : Int := entries.foldl
    (fun n e => if 400 ≤ e.StatusCode then n + 1 else n) 0
  { TotalRequests := (entries.length : Int)
    UniqueIPs := (ipCounts.length : Int)
    AvgResponseTime :=
      if 0 < timeAcc.2 then timeAcc.1 / (timeAcc.2 : ℚ) else 0
    ErrorRate :=
      if 0 < (entries.length : Int) then
        (errorCount : ℚ) / ((entries.length : Int) : ℚ) * 100
      else 0
    TopPaths := getTopItems (countsOf (entries.map (fun e => e.Path))) 10
    TopIPs := getTopIPs ipCounts 10
    StatusCodeBreakdown := countsOf (entries.map (fun e => toString e.StatusCode))
    HourlyTraffic := getHourlyTraffic entries }

/-! ## Concrete fixtures and specification-side descriptions -/

/-- An arbitrary ingestion wall-clock instant (the generic parser's
fallback time; no claim depends on its value). -/
def wallClock : Timestamp :=
  { year := 2024, month := 1, day := 1, hour := 0, minute := 0, second := 0,
    offsetMin := 0 }

/-- The entry `parseGenericLog` produces for the generic scenario line. -/
def genericScenarioEntry : LogEntry :=
  { ID := 0,
    Timestamp := { year := 2023, month := 10, day := 10, hour := 13,
                   minute := 55, second := 38, offsetMin := 0 },
    LogType := "generic", SourceIP := "", Method := "",
    Path := "User login successful user_id=12345 ip=192.168.1.102",
    StatusCode := 0, ResponseSize := 0, UserAgent := "", Referer := "",
    ProcessingTime := 0, RawLog := genericScenarioLine,
    Metadata := [("user_id", MetaValue.intVal 12345),
                 ("ip", MetaValue.strVal "192.168.1.102")],
    CreatedAt := wallClock, UpdatedAt := wallClock }

/-- A synthetic entry with a chosen status code (report-aggregation
fixtures). -/
def mkStatusEntry (code : Int) : LogEntry :=
  { ID := 0, Timestamp := wallClock, LogType := "apache",
    SourceIP := "10.0.0.1", Method := "GET", Path := "/",
    StatusCode := code, ResponseSize := 0, UserAgent := "", Referer := "",
    ProcessingTime := 0, RawLog := "", Metadata := [],
    CreatedAt := wallClock, UpdatedAt := wallClock }

/-- Ten entries of which exactly three have status ≥ 400. -/
def tenEntriesThreeErrors : List LogEntry :=
  List.replicate 3 (mkStatusEntry 404) ++ List.replicate 7 (mkStatusEntry 200)

/-- Specification-side description of the error-channel contents of
`ProcessFile` (spec §4.2): every non-blank line whose parse fails is
recorded with its 1-based number among the dispatched (non-blank) lines
and the underlying cause; `k` is the number of non-blank lines already
dispatched. -/
def specPerLineErrorsFrom (now : Timestamp) (logType : String) :
    Nat → List String → List (Nat × String)
  | _, [] => []
  | k, l :: rest =>
    if goTrimSpace l = "" then specPerLineErrorsFrom now logType k rest
    else
      match parseLogLine now l logType with
      | .fail msg => (k + 1, msg) :: specPerLineErrorsFrom now logType (k + 1) rest
      | _ => specPerLineErrorsFrom now logType (k + 1) rest

/-- Specification-side description of the error channel for a whole call. -/
def specPerLineErrors (now : Timestamp) (logType : String)
    (lines : List String) : List (Nat × String) :=
  specPerLineErrorsFrom now logType 0 lines

/-- Specification-side description of the entry-channel contents of
`ProcessFile`: the successful parses of the non-blank lines, each
delivered exactly once. -/
def specEntriesFrom (now : Timestamp) (logType : String)
    (lines : List String) : List LogEntry :=
  (lines.filter (fun l => !(goTrimSpace l == ""))).filterMap
    (fun l => (parseLogLine now l logType).entry?)

/-- A counter event carries one of the three supported format tags. -/
def knownType (e : StatEvent) : Bool :=
  match e with
  | .processed ty => ty == "apache" || ty == "nginx" || ty == "generic"
  | .errored => true

/-! ## Model validation

Concrete evaluations of the embedding on the fixtures of the repository's
test suite (`processor_test.go`), checking the model against the behavior
the tests pin down. -/

example :
    splitApacheLog "192.168.1.100 - - [10/Oct/2023:13:55:36 +0000] \"GET /api/users HTTP/1.1\" 200 1234 \"https://example.com\" \"Mozilla/5.0\"" =
      ["192.168.1.100", "-", "-", "[10/Oct/2023:13:55:36", "+0000]",
        "GET /api/users HTTP/1.1", "200", "1234", "https://example.com",
        "Mozilla/5.0"] := by decide

example : goFields "2023-10-10 13:55:38  INFO" = ["2023-10-10", "13:55:38", "INFO"] := by
  decide

example : goAtoi "200" = some 200 := by decide
example : goAtoi "-17" = some (-17) := by decide
example : goAtoi "1a" = none := by decide
example : (goParseFloat "0.045").isSome = true := by decide
example : goParseFloat "192.168.1.102" = none := by decide

example :
    parseApacheTimestamp "[10/Oct/2023:13:55:36 +0000]" =
      some { year := 2023, month := 10, day := 10, hour := 13,
             minute := 55, second := 36, offsetMin := 0 } := by decide

example :
    parseGenericTimestamp "2023-10-10 13:55:38" =
      some { year := 2023, month := 10, day := 10, hour := 13,
             minute := 55, second := 38, offsetMin := 0 } := by decide

example : parseApacheTimestamp "not a date" = none := by decide

example : isValidIP "192.168.1.100" = true := by decide
example : isValidIP "10.0.0.1" = true := by decide
example : isValidIP "::1" = true := by decide
example : isValidIP "2001:db8::1" = true := by decide
example : isValidIP "256.256.256.256" = false := by decide
example : isValidIP "192.168.1.256" = false := by decide
example : isValidIP "invalid" = false := by decide
example : isValidIP "192.168.1" = false := by decide
example : isValidIP "192.168.1.1.1" = false := by decide

example :
    kvScanAux 46 "User login successful user_id=12345 ip=192.168.1.102".data =
      [("user_id", "12345"), ("ip", "192.168.1.102")] := by decide

example : (splitApacheLog apacheNineTokenLine).length = 9 := by decide

example : parseApacheLog wallClock apacheNineTokenLine =
    ParseResult.indexOutOfRange := by decide

example :
    (parseApacheLog wallClock apacheScenarioLine).entry?.map (fun e => e.Method) =
      some "GET" := by decide

example : ((3 : Int) : ℚ) / ((10 : Nat) : ℚ) * 100 = 30 := by norm_num

/-! ## Claims -/

/-- C1: the claim says every Apache/Nginx line whose tokenization yields
at least 9 well-formed tokens is accepted with every index in bounds, in
particular a well-formed line with exactly 9 tokens.  The code violates
this: `apacheNineTokenLine` has exactly 9 tokens, a valid IP, a parseable
timestamp, a two-field request and an integer status, passes the
`len(parts) < 9` check, and then the `parts[9]` read is out of range — in
Go a runtime panic, not an accepted entry (the nginx parser shares the
flow and the defect). -/
theorem C1_nine_token_line_panics (now : Timestamp) :
    (splitApacheLog apacheNineTokenLine).length = 9 ∧
    isValidIP ((splitApacheLog apacheNineTokenLine).getD 0 "") = true ∧
    (parseApacheTimestamp ((splitApacheLog apacheNineTokenLine).getD 3 "" ++ " " ++
      (splitApacheLog apacheNineTokenLine).getD 4 "")).isSome = true ∧
    2 ≤ (goFields ((splitApacheLog apacheNineTokenLine).getD 5 "")).length ∧
    (goAtoi ((splitApacheLog apacheNineTokenLine).getD 6 "")).isSome = true ∧
    parseApacheLog now apacheNineTokenLine = ParseResult.indexOutOfRange ∧
    parseNginxLog now apacheNineTokenLine = ParseResult.indexOutOfRange := by
  exact ⟨by decide, by decide, by decide, by decide, by decide, rfl, rfl⟩

/-- C2: parsing the spec §8 Apache scenario line succeeds and yields the
claimed field values, with `raw_log` equal to the input character for
character. -/
theorem C2_apache_scenario_fields (now : Timestamp) :
    (parseApacheLog now apacheScenarioLine).entry?.map
        (fun e => (e.LogType, e.SourceIP, e.Method, e.Path, e.StatusCode,
          e.ResponseSize, e.Referer, e.UserAgent, e.RawLog)) =
      some ("apache", "192.168.1.100", "GET", "/api/users", (200 : Int),
        (1234 : Int), "https://example.com", "Mozilla/5.0",
        apacheScenarioLine) := by
  rfl

/-- C6: a line with fewer than the minimum number of tokens (9 quote-aware
tokens for apache/nginx, 3 whitespace fields for generic) is rejected with
the format error naming the format — the message begins with "invalid
Apache log format" (resp. Nginx/generic) — and no entry is produced. -/
theorem C6_short_lines_rejected (now : Timestamp) (line : String) :
    ((splitApacheLog line).length < 9 →
      parseApacheLog now line =
        ParseResult.fail
          ("invalid Apache log format: expected at least 9 parts, got " ++
            toString (splitApacheLog line).length) ∧
      (parseApacheLog now line).entry? = none) ∧
    ((splitNginxLog line).length < 9 →
      parseNginxLog now line =
        ParseResult.fail
          ("invalid Nginx log format: expected at least 9 parts, got " ++
            toString (splitNginxLog line).length) ∧
      (parseNginxLog now line).entry? = none) ∧
    ((goFields line).length < 3 →
      parseGenericLog now line =
        ParseResult.fail
          ("invalid generic log format: expected at least 3 parts, got " ++
            toString (goFields line).length) ∧
      (parseGenericLog now line).entry? = none) := by
  refine ⟨fun h => ?_, fun h => ?_, fun h => ?_⟩
  · have heq : parseApacheLog now line =
        ParseResult.fail
          ("invalid Apache log format: expected at least 9 parts, got " ++
            toString (splitApacheLog line).length) := by
      simp only [parseApacheLog]
      rw [if_pos h]
    exact ⟨heq, by rw [heq]; rfl⟩
  · have heq : parseNginxLog now line =
        ParseResult.fail
          ("invalid Nginx log format: expected at least 9 parts, got " ++
            toString (splitNginxLog line).length) := by
      simp only [parseNginxLog]
      rw [if_pos h]
    exact ⟨heq, by rw [heq]; rfl⟩
  · have heq : parseGenericLog now line =
        ParseResult.fail
          ("invalid generic log format: expected at least 3 parts, got " ++
            toString (goFields line).length) := by
      simp only [parseGenericLog]
      rw [if_pos h]
    exact ⟨heq, by rw [heq]; rfl⟩

/-- Witness for C6 at the one-token line "short": all three token-count
hypotheses hold there and the rejections follow. -/
theorem C6_short_lines_rejected_witness :
    ((splitApacheLog "short").length < 9 ∧
      (parseApacheLog wallClock "short" =
        ParseResult.fail
          ("invalid Apache log format: expected at least 9 parts, got " ++
            toString (splitApacheLog "short").length) ∧
      (parseApacheLog wallClock "short").entry? = none)) ∧
    ((splitNginxLog "short").length < 9 ∧
      (parseNginxLog wallClock "short" =
        ParseResult.fail
          ("invalid Nginx log format: expected at least 9 parts, got " ++
            toString (splitNginxLog "short").length) ∧
      (parseNginxLog wallClock "short").entry? = none)) ∧
    ((goFields "short").length < 3 ∧
      (parseGenericLog wallClock "short" =
        ParseResult.fail
          ("invalid generic log format: expected at least 3 parts, got " ++
            toString (goFields "short").length) ∧
      (parseGenericLog wallClock "short").entry? = none)) :=
  ⟨⟨by decide, (C6_short_lines_rejected wallClock "short").1 (by decide)⟩,
   ⟨by decide, (C6_short_lines_rejected wallClock "short").2.1 (by decide)⟩,
   ⟨by decide, (C6_short_lines_rejected wallClock "short").2.2 (by decide)⟩⟩

/-- C7: on the spec §8 generic scenario line, the extracted metadata maps
"user_id" to the integer 12345 (the integer coercion fires first) and
"ip" to the string "192.168.1.102" (integer, float and boolean coercions
all fail), and contains nothing else — whatever the ingestion wall clock
is. -/
theorem C7_generic_metadata_scenario (now : Timestamp) :
    (parseGenericLog now genericScenarioLine).entry?.map
        (fun e => (metaLookup e.Metadata "user_id", metaLookup e.Metadata "ip",
          e.Metadata.length)) =
      some (some (MetaValue.intVal 12345),
        some (MetaValue.strVal "192.168.1.102"), 2) := by
  rfl

/-- C10: every entry the generic parser accepts stores the free-text
message (whitespace fields from the fourth onward joined by single
spaces) in `Path`, leaves the request-oriented string fields empty and
the numeric fields zero; hence its status never reaches the ≥ 400
error-rate test and it contributes the empty string to the source-IP
count. -/
theorem C10_generic_entry_shape (now : Timestamp) (line : String)
    (e : LogEntry) (h : parseGenericLog now line = ParseResult.ok e) :
    e.Path = " ".intercalate ((goFields line).drop 3) ∧ e.SourceIP = "" ∧
    e.Method = "" ∧ e.UserAgent = "" ∧ e.Referer = "" ∧ e.StatusCode = 0 ∧
    e.ResponseSize = 0 ∧ e.ProcessingTime = 0 ∧
    ¬ (400 : Int) ≤ e.StatusCode := by
  simp only [parseGenericLog] at h
  by_cases hlen : (goFields line).length < 3
  · rw [if_pos hlen] at h
    exact (ParseResult.noConfusion h)
  · rw [if_neg hlen] at h
    injection h with h'
    subst h'
    exact ⟨rfl, rfl, rfl, rfl, rfl, rfl, rfl, rfl,
      by show ¬ (400 : Int) ≤ (0 : Int); decide⟩

/-- Witness for C10 at the generic scenario line: the parser accepts it
with exactly the entry `genericScenarioEntry`, whose fields have the
claimed shape. -/
theorem C10_generic_entry_shape_witness :
    parseGenericLog wallClock genericScenarioLine =
        ParseResult.ok genericScenarioEntry ∧
    (genericScenarioEntry.Path =
        " ".intercalate ((goFields genericScenarioLine).drop 3) ∧
      genericScenarioEntry.SourceIP = "" ∧ genericScenarioEntry.Method = "" ∧
      genericScenarioEntry.UserAgent = "" ∧ genericScenarioEntry.Referer = "" ∧
      genericScenarioEntry.StatusCode = 0 ∧
      genericScenarioEntry.ResponseSize = 0 ∧
      genericScenarioEntry.ProcessingTime = 0 ∧
      ¬ (400 : Int) ≤ genericScenarioEntry.StatusCode) :=
  ⟨by decide,
   C10_generic_entry_shape wallClock genericScenarioLine genericScenarioEntry
     (by decide)⟩

/-- The balance invariant of the statistics counters: the total equals the
sum of the three per-type buckets. -/
def statsBalanced (s : StatsState) : Prop :=
  s.TotalProcessed = s.ApacheProcessed + s.NginxProcessed + s.GenericProcessed

theorem incrementProcessed_balanced (s : StatsState) (ty : String)
    (hty : ty = "apache" ∨ ty = "nginx" ∨ ty = "generic")
    (hs : statsBalanced s) : statsBalanced (incrementProcessed s ty) := by
  unfold statsBalanced at hs ⊢
  rcases hty with h | h | h <;> subst h <;> simp [incrementProcessed] <;> omega

theorem incrementErrors_balanced (s : StatsState) (hs : statsBalanced s) :
    statsBalanced (incrementErrors s) := hs

theorem runStats_balanced_aux (events : List StatEvent) :
    ∀ s : StatsState, events.all knownType = true → statsBalanced s →
      statsBalanced (events.foldl statsStep s) := by
  induction events with
  | nil => intro s _ hs; simpa using hs
  | cons e rest ih =>
    intro s h hs
    rw [List.all_cons, Bool.and_eq_true] at h
    rw [List.foldl_cons]
    refine ih _ h.2 ?_
    cases e with
    | processed ty =>
      refine incrementProcessed_balanced s ty ?_ hs
      have := h.1
      simp only [knownType, Bool.or_eq_true, beq_iff_eq] at this
      tauto
    | errored => exact incrementErrors_balanced s hs

/-- C9: provided every `incrementProcessed` event carries one of the three
supported tags, every snapshot `GetStats` can return satisfies
`TotalProcessed = ApacheProcessed + NginxProcessed + GenericProcessed`.
Each increment is one mutex-guarded critical section, modelled as one
atomic `StatEvent`, and a reader holding the same lock sees the fold of a
whole event prefix — never a torn intermediate state; `GetStats` returns a
field-by-field copy, and `incrementErrors` moves only the error counter. -/
theorem C9_counter_invariant (events : List StatEvent)
    (h : events.all knownType = true) :
    statsBalanced (GetStats (runStats events)) ∧
    GetStats (runStats events) = runStats events ∧
    (∀ s : StatsState, incrementErrors s = { s with Errors := s.Errors + 1 }) := by
  refine ⟨?_, rfl, fun s => rfl⟩
  have : statsBalanced (runStats events) :=
    runStats_balanced_aux events initialStats h
      (by norm_num [statsBalanced, initialStats])
  simpa [GetStats] using this

/-- Witness for C9 on a concrete mixed history of the three tags and an
error event. -/
theorem C9_counter_invariant_witness :
    ([StatEvent.processed "apache", StatEvent.errored,
        StatEvent.processed "generic", StatEvent.processed "nginx",
        StatEvent.processed "apache"].all knownType = true) ∧
    (statsBalanced (GetStats (runStats
        [StatEvent.processed "apache", StatEvent.errored,
          StatEvent.processed "generic", StatEvent.processed "nginx",
          StatEvent.processed "apache"])) ∧
      GetStats (runStats
        [StatEvent.processed "apache", StatEvent.errored,
          StatEvent.processed "generic", StatEvent.processed "nginx",
          StatEvent.processed "apache"]) = runStats
        [StatEvent.processed "apache", StatEvent.errored,
          StatEvent.processed "generic", StatEvent.processed "nginx",
          StatEvent.processed "apache"] ∧
      (∀ s : StatsState, incrementErrors s = { s with Errors := s.Errors + 1 })) :=
  ⟨by decide, C9_counter_invariant _ (by decide)⟩

theorem foldl_ite_count {α : Type} (q : α → Prop) [DecidablePred q]
    (l : List α) (n : Int) :
    l.foldl (fun acc x => if q x then acc + 1 else acc) n =
      n + (l.countP (fun x => decide (q x)) : Nat) := by
  induction l generalizing n with
  | nil => simp
  | cons x xs ih =>
    rw [List.foldl_cons, ih, List.countP_cons]
    by_cases hx : q x
    · simp only [if_pos hx, decide_eq_true hx, if_pos rfl]
      push_cast
      ring
    · simp [hx]

/-- C4: the error rate is 100 × (entries with status ≥ 400) / total, and 0
for the empty collection; on the ten-entry fixture with three status-404
entries it is exactly 30. -/
theorem C4_error_rate (entries : List LogEntry) :
    ((prepareSummary entries).ErrorRate =
      if entries.length = 0 then 0
      else ((entries.countP (fun e => (400 : Int) ≤ e.StatusCode) : Nat) : ℚ) /
        ((entries.length : Nat) : ℚ) * 100) ∧
    (prepareSummary tenEntriesThreeErrors).ErrorRate = 30 := by
  constructor
  · simp only [prepareSummary]
    rw [foldl_ite_count]
    by_cases h : entries.length = 0
    · simp [h]
    · rw [if_neg h, if_pos (by omega : 0 < (entries.length : Int))]
      push_cast
      ring
  · have h0 : (prepareSummary tenEntriesThreeErrors).ErrorRate =
        ((3 : Int) : ℚ) / ((10 : Int) : ℚ) * 100 := rfl
    rw [h0]
    norm_num

theorem lookupCount_bumpKey {κ : Type} [DecidableEq κ] (m : List (κ × Int))
    (j k : κ) :
    lookupCount (bumpKey m j) k =
      lookupCount m k + (if j = k then 1 else 0) := by
  induction m with
  | nil =>
    simp only [bumpKey, lookupCount]
    by_cases h : j = k <;> simp [h]
  | cons p m ih =>
    simp only [bumpKey, lookupCount]
    by_cases hp : p.1 = j
    · rw [if_pos hp]
      by_cases hk : p.1 = k
      · simp [lookupCount, hk, show j = k from hp.symm.trans hk]
      · simp [lookupCount, hk, show ¬ j = k from fun h => hk (hp.trans h)]
    · rw [if_neg hp]
      by_cases hk : p.1 = k
      · simp [lookupCount, hk, show ¬ j = k from fun h => hp (hk.trans h.symm)]
      · simp [lookupCount, hk, ih]

theorem lookupCount_countsOf_aux {κ : Type} [DecidableEq κ] (keys : List κ) :
    ∀ (m : List (κ × Int)) (k : κ),
      lookupCount (keys.foldl bumpKey m) k =
        lookupCount m k + (keys.countP (fun x => x = k) : Nat) := by
  induction keys with
  | nil => intro m k; simp
  | cons x xs ih =>
    intro m k
    rw [List.foldl_cons, ih, lookupCount_bumpKey, List.countP_cons]
    by_cases hx : x = k
    · subst hx
      simp
      omega
    · simp [hx]

theorem lookupCount_countsOf {κ : Type} [DecidableEq κ] (keys : List κ)
    (k : κ) :
    lookupCount (countsOf keys) k = (keys.countP (fun x => x = k) : Nat) := by
  unfold countsOf
  rw [lookupCount_countsOf_aux]
  simp [lookupCount]

theorem sum_map_add_int {α : Type} (l : List α) (f g : α → Int) :
    (l.map (fun x => f x + g x)).sum = (l.map f).sum + (l.map g).sum := by
  induction l with
  | nil => simp
  | cons x xs ih =>
    simp only [List.map_cons, List.sum_cons, ih]
    ring

theorem sum_indicator_range (x n : Nat) (hx : x < n) :
    ((List.range n).map (fun k => if x = k then (1 : Int) else 0)).sum = 1 := by
  induction n with
  | zero => omega
  | succ n ih =>
    rw [List.range_succ, List.map_append, List.sum_append]
    by_cases h : x = n
    · subst h
      have hz : ((List.range x).map
          (fun k => if x = k then (1 : Int) else 0)).sum = 0 := by
        apply List.sum_eq_zero
        intro y hy
        obtain ⟨k, hk, rfl⟩ := List.mem_map.mp hy
        have : k < x := List.mem_range.mp hk
        simp [show x ≠ k from by omega]
      simp [hz]
    · have hx' : x < n := by omega
      simp [ih hx', h]

theorem sum_hour_buckets (entries : List LogEntry) :
    ((List.range 24).map
        (fun h => ((entries.countP (fun e => e.Timestamp.Hour = h) : Nat) : Int))).sum =
      (entries.length : Int) := by
  induction entries with
  | nil => simp
  | cons e es ih =>
    have h24 : e.Timestamp.Hour < 24 := Nat.mod_lt _ (by omega)
    have hpt : ∀ h ∈ List.range 24,
        (fun h => (((e :: es).countP (fun x => x.Timestamp.Hour = h) : Nat) : Int)) h =
          (fun h => ((es.countP (fun x => x.Timestamp.Hour = h) : Nat) : Int) +
            (if e.Timestamp.Hour = h then (1 : Int) else 0)) h := by
      intro h _
      simp only [List.countP_cons]
      by_cases hc : e.Timestamp.Hour = h
      · simp [hc]
      · simp [hc]
    rw [List.map_congr_left hpt, sum_map_add_int, ih,
      sum_indicator_range _ _ h24]
    simp only [List.length_cons]
    push_cast
    ring

/-- C5: the hourly histogram has exactly the 24 buckets for hours 0–23 in
ascending order, the bucket for hour `h` counting the entries whose clock
hour equals `h` (zero when none fall there), and the bucket counts sum to
the number of entries. -/
theorem C5_hourly_histogram (entries : List LogEntry) :
    getHourlyTraffic entries =
      (List.range 24).map (fun h =>
        { Hour := h,
          Count := ((entries.countP (fun e => e.Timestamp.Hour = h) : Nat) : Int) }) ∧
    (getHourlyTraffic entries).length = 24 ∧
    ((getHourlyTraffic entries).map (fun b => b.Count)).sum =
      (entries.length : Int) := by
  have h1 : getHourlyTraffic entries =
      (List.range 24).map (fun h =>
        ({ Hour := h,
           Count := ((entries.countP (fun e => e.Timestamp.Hour = h) : Nat) : Int) } :
          HourlyTraffic)) := by
    unfold getHourlyTraffic
    apply List.map_congr_left
    intro h _
    rw [lookupCount_countsOf]
    congr 1
    rw [List.countP_map]
    rfl
  refine ⟨h1, ?_, ?_⟩
  · rw [h1]
    simp
  · rw [h1, List.map_map]
    exact sum_hour_buckets entries

theorem bumpKey_ne_nil {κ : Type} [DecidableEq κ] (m : List (κ × Int))
    (k : κ) : bumpKey m k ≠ [] := by
  cases m with
  | nil => simp [bumpKey]
  | cons p m =>
    simp only [bumpKey]
    by_cases hp : p.1 = k
    · simp [hp]
    · simp [hp]

theorem foldl_bumpKey_ne_nil {κ : Type} [DecidableEq κ] (keys : List κ) :
    ∀ m : List (κ × Int), m ≠ [] → keys.foldl bumpKey m ≠ [] := by
  induction keys with
  | nil => intro m hm; simpa using hm
  | cons x xs ih =>
    intro m _
    rw [List.foldl_cons]
    exact ih _ (bumpKey_ne_nil _ _)

theorem countsOf_ne_nil {κ : Type} [DecidableEq κ] (keys : List κ)
    (h : keys ≠ []) : countsOf keys ≠ [] := by
  cases keys with
  | nil => exact absurd rfl h
  | cons x xs =>
    unfold countsOf
    rw [List.foldl_cons]
    exact foldl_bumpKey_ne_nil xs _ (bumpKey_ne_nil _ _)

theorem bumpKey_pos {κ : Type} [DecidableEq κ] (m : List (κ × Int)) (k : κ)
    (hm : ∀ p ∈ m, 1 ≤ p.2) : ∀ p ∈ bumpKey m k, 1 ≤ p.2 := by
  induction m with
  | nil =>
    intro p hp
    simp only [bumpKey, List.mem_singleton] at hp
    subst hp
    exact le_refl 1
  | cons q m ih =>
    intro p hp
    simp only [bumpKey] at hp
    by_cases hq : q.1 = k
    · rw [if_pos hq] at hp
      rcases List.mem_cons.mp hp with h | h
      · subst h
        have := hm q (by simp)
        simp only
        omega
      · exact hm p (by simp [h])
    · rw [if_neg hq] at hp
      rcases List.mem_cons.mp hp with h | h
      · subst h
        exact hm p (by simp)
      · exact ih (fun r hr => hm r (by simp [hr])) p h

theorem countsOf_pos_aux {κ : Type} [DecidableEq κ] (keys : List κ) :
    ∀ m : List (κ × Int), (∀ p ∈ m, 1 ≤ p.2) →
      ∀ p ∈ keys.foldl bumpKey m, 1 ≤ p.2 := by
  induction keys with
  | nil => intro m hm; simpa using hm
  | cons x xs ih =>
    intro m hm
    rw [List.foldl_cons]
    exact ih _ (bumpKey_pos m x hm)

theorem countsOf_pos {κ : Type} [DecidableEq κ] (keys : List κ) :
    ∀ p ∈ countsOf keys, 1 ≤ p.2 :=
  countsOf_pos_aux keys [] (by simp)

theorem sum_pos_of_all_one_le (l : List Int) (hne : l ≠ [])
    (h : ∀ x ∈ l, 1 ≤ x) : 0 < l.sum := by
  cases l with
  | nil => exact absurd rfl hne
  | cons x xs =>
    have hx : 1 ≤ x := h x (by simp)
    have hxs : 0 ≤ xs.sum :=
      List.sum_nonneg (fun y hy => le_trans (by omega) (h y (by simp [hy])))
    rw [List.sum_cons]
    omega

theorem sum_map_div_mul (l : List ℚ) (T : ℚ) :
    (l.map (fun c => c / T * 100)).sum = l.sum / T * 100 := by
  induction l with
  | nil => simp
  | cons x xs ih =>
    simp only [List.map_cons, List.sum_cons, ih]
    ring

theorem sum_map_ratCast (l : List Int) :
    (l.map (fun x : Int => (x : ℚ))).sum = (l.sum : ℚ) := by
  induction l with
  | nil => simp
  | cons x xs ih =>
    rw [List.map_cons, List.sum_cons, List.sum_cons, ih]
    push_cast
    ring

theorem topStagePath_spec (top : List PathSummary) (hne : top ≠ [])
    (hpos : ∀ it ∈ top, 1 ≤ it.Count) (hpw : top.Pairwise pathCountGE) :
    ((top.map (fun it =>
      if 0 < (top.map (fun x => x.Count)).sum then
        { it with Percentage := (it.Count : ℚ) /
            (((top.map (fun x => x.Count)).sum : Int) : ℚ) * 100 }
      else it)).length = top.length ∧
    (top.map (fun it =>
      if 0 < (top.map (fun x => x.Count)).sum then
        { it with Percentage := (it.Count : ℚ) /
            (((top.map (fun x => x.Count)).sum : Int) : ℚ) * 100 }
      else it)).Pairwise (fun a b => b.Count ≤ a.Count) ∧
    (∀ it ∈ (top.map (fun it =>
      if 0 < (top.map (fun x => x.Count)).sum then
        { it with Percentage := (it.Count : ℚ) /
            (((top.map (fun x => x.Count)).sum : Int) : ℚ) * 100 }
      else it)),
      it.Percentage = (it.Count : ℚ) /
        (((top.map (fun x => x.Count)).sum : Int) : ℚ) * 100) ∧
    ((top.map (fun it =>
      if 0 < (top.map (fun x => x.Count)).sum then
        { it with Percentage := (it.Count : ℚ) /
            (((top.map (fun x => x.Count)).sum : Int) : ℚ) * 100 }
      else it)).map (fun x => x.Percentage)).sum = 100) := by
  have hT : 0 < (top.map (fun x => x.Count)).sum := by
    refine sum_pos_of_all_one_le _
      (fun hmap => hne (List.map_eq_nil_iff.mp hmap)) ?_
    intro y hy
    obtain ⟨it, hit, rfl⟩ := List.mem_map.mp hy
    exact hpos it hit
  have hTQ : (((top.map (fun x => x.Count)).sum : Int) : ℚ) ≠ 0 := by
    exact_mod_cast (by omega : ((top.map (fun x => x.Count)).sum : Int) ≠ 0)
  have hF : (top.map (fun it =>
      if 0 < (top.map (fun x => x.Count)).sum then
        { it with Percentage := (it.Count : ℚ) /
            (((top.map (fun x => x.Count)).sum : Int) : ℚ) * 100 }
      else it)) = top.map (fun it =>
        { it with Percentage := (it.Count : ℚ) /
            (((top.map (fun x => x.Count)).sum : Int) : ℚ) * 100 }) :=
    List.map_congr_left (fun it _ => if_pos hT)
  rw [hF]
  refine ⟨by simp, ?_, ?_, ?_⟩
  · exact List.Pairwise.map _ (fun a b h => h) hpw
  · intro it hit
    obtain ⟨x, hx, rfl⟩ := List.mem_map.mp hit
    rfl
  · rw [List.map_map]
    have hcast : (top.map (fun it : PathSummary => (it.Count : ℚ))).sum =
        (((top.map (fun x => x.Count)).sum : Int) : ℚ) := by
      have h := sum_map_ratCast (top.map (fun x : PathSummary => x.Count))
      rw [List.map_map] at h
      exact h
    have h2 : (top.map (fun it : PathSummary =>
        (it.Count : ℚ) / (((top.map (fun x => x.Count)).sum : Int) : ℚ) * 100)).sum =
        (top.map (fun it : PathSummary => (it.Count : ℚ))).sum /
          (((top.map (fun x => x.Count)).sum : Int) : ℚ) * 100 := by
      have h := sum_map_div_mul (top.map (fun it : PathSummary => (it.Count : ℚ)))
        (((top.map (fun x => x.Count)).sum : Int) : ℚ)
      rw [List.map_map] at h
      exact h
    show (top.map (fun it : PathSummary =>
        (it.Count : ℚ) / (((top.map (fun x => x.Count)).sum : Int) : ℚ) * 100)).sum = 100
    rw [h2, hcast, div_self hTQ]
    norm_num

theorem topStagePath_counts (top : List PathSummary) :
    ((top.map (fun it =>
      if 0 < (top.map (fun x => x.Count)).sum then
        { it with Percentage := (it.Count : ℚ) /
            (((top.map (fun x => x.Count)).sum : Int) : ℚ) * 100 }
      else it)).map (fun x => x.Count)) = top.map (fun x => x.Count) := by
  rw [List.map_map]
  apply List.map_congr_left
  intro it _
  show (if 0 < (top.map (fun x => x.Count)).sum then
      { it with Percentage := (it.Count : ℚ) /
          (((top.map (fun x => x.Count)).sum : Int) : ℚ) * 100 }
    else it).Count = it.Count
  by_cases h : 0 < (top.map (fun x => x.Count)).sum
  · rw [if_pos h]
  · rw [if_neg h]

theorem topStageIP_spec (top : List IPSummary) (hne : top ≠ [])
    (hpos : ∀ it ∈ top, 1 ≤ it.Count) (hpw : top.Pairwise ipCountGE) :
    ((top.map (fun it =>
      if 0 < (top.map (fun x => x.Count)).sum then
        { it with Percentage := (it.Count : ℚ) /
            (((top.map (fun x => x.Count)).sum : Int) : ℚ) * 100 }
      else it)).length = top.length ∧
    (top.map (fun it =>
      if 0 < (top.map (fun x => x.Count)).sum then
        { it with Percentage := (it.Count : ℚ) /
            (((top.map (fun x => x.Count)).sum : Int) : ℚ) * 100 }
      else it)).Pairwise (fun a b => b.Count ≤ a.Count) ∧
    (∀ it ∈ (top.map (fun it =>
      if 0 < (top.map (fun x => x.Count)).sum then
        { it with Percentage := (it.Count : ℚ) /
            (((top.map (fun x => x.Count)).sum : Int) : ℚ) * 100 }
      else it)),
      it.Percentage = (it.Count : ℚ) /
        (((top.map (fun x => x.Count)).sum : Int) : ℚ) * 100) ∧
    ((top.map (fun it =>
      if 0 < (top.map (fun x => x.Count)).sum then
        { it with Percentage := (it.Count : ℚ) /
            (((top.map (fun x => x.Count)).sum : Int) : ℚ) * 100 }
      else it)).map (fun x => x.Percentage)).sum = 100) := by
  have hT : 0 < (top.map (fun x => x.Count)).sum := by
    refine sum_pos_of_all_one_le _
      (fun hmap => hne (List.map_eq_nil_iff.mp hmap)) ?_
    intro y hy
    obtain ⟨it, hit, rfl⟩ := List.mem_map.mp hy
    exact hpos it hit
  have hTQ : (((top.map (fun x => x.Count)).sum : Int) : ℚ) ≠ 0 := by
    exact_mod_cast (by omega : ((top.map (fun x => x.Count)).sum : Int) ≠ 0)
  have hF : (top.map (fun it =>
      if 0 < (top.map (fun x => x.Count)).sum then
        { it with Percentage := (it.Count : ℚ) /
            (((top.map (fun x => x.Count)).sum : Int) : ℚ) * 100 }
      else it)) = top.map (fun it =>
        { it with Percentage := (it.Count : ℚ) /
            (((top.map (fun x => x.Count)).sum : Int) : ℚ) * 100 }) :=
    List.map_congr_left (fun it _ => if_pos hT)
  rw [hF]
  refine ⟨by simp, ?_, ?_, ?_⟩
  · exact List.Pairwise.map _ (fun a b h => h) hpw
  · intro it hit
    obtain ⟨x, hx, rfl⟩ := List.mem_map.mp hit
    rfl
  · rw [List.map_map]
    have hcast : (top.map (fun it : IPSummary => (it.Count : ℚ))).sum =
        (((top.map (fun x => x.Count)).sum : Int) : ℚ) := by
      have h := sum_map_ratCast (top.map (fun x : IPSummary => x.Count))
      rw [List.map_map] at h
      exact h
    have h2 : (top.map (fun it : IPSummary =>
        (it.Count : ℚ) / (((top.map (fun x => x.Count)).sum : Int) : ℚ) * 100)).sum =
        (top.map (fun it : IPSummary => (it.Count : ℚ))).sum /
          (((top.map (fun x => x.Count)).sum : Int) : ℚ) * 100 := by
      have h := sum_map_div_mul (top.map (fun it : IPSummary => (it.Count : ℚ)))
        (((top.map (fun x => x.Count)).sum : Int) : ℚ)
      rw [List.map_map] at h
      exact h
    show (top.map (fun it : IPSummary =>
        (it.Count : ℚ) / (((top.map (fun x => x.Count)).sum : Int) : ℚ) * 100)).sum = 100
    rw [h2, hcast, div_self hTQ]
    norm_num

theorem topStageIP_counts (top : List IPSummary) :
    ((top.map (fun it =>
      if 0 < (top.map (fun x => x.Count)).sum then
        { it with Percentage := (it.Count : ℚ) /
            (((top.map (fun x => x.Count)).sum : Int) : ℚ) * 100 }
      else it)).map (fun x => x.Count)) = top.map (fun x => x.Count) := by
  rw [List.map_map]
  apply List.map_congr_left
  intro it _
  show (if 0 < (top.map (fun x => x.Count)).sum then
      { it with Percentage := (it.Count : ℚ) /
          (((top.map (fun x => x.Count)).sum : Int) : ℚ) * 100 }
    else it).Count = it.Count
  by_cases h : 0 < (top.map (fun x => x.Count)).sum
  · rw [if_pos h]
  · rw [if_neg h]

theorem getTopItems_spec (counts : List (String × Int))
    (hpos : ∀ p ∈ counts, 1 ≤ p.2) (hne : counts ≠ []) :
    (getTopItems counts 10).length ≤ 10 ∧
    (getTopItems counts 10).Pairwise (fun a b => b.Count ≤ a.Count) ∧
    (∀ it ∈ getTopItems counts 10,
      it.Percentage = (it.Count : ℚ) /
        ((((getTopItems counts 10).map (fun x => x.Count)).sum : Int) : ℚ) * 100) ∧
    ((getTopItems counts 10).map (fun x => x.Percentage)).sum = 100 := by
  have hitems : ∀ it ∈ (sortPathsDesc (counts.map (fun p =>
      ({ Path := p.1, Count := p.2, Percentage := 0 } : PathSummary)))).take 10,
      1 ≤ it.Count := by
    intro it hit
    have hmem := List.mem_of_mem_take hit
    have hmem' : it ∈ counts.map (fun p =>
        ({ Path := p.1, Count := p.2, Percentage := 0 } : PathSummary)) :=
      (List.perm_insertionSort pathCountGE _).mem_iff.mp hmem
    obtain ⟨p, hp, rfl⟩ := List.mem_map.mp hmem'
    exact hpos p hp
  have htopne : (sortPathsDesc (counts.map (fun p =>
      ({ Path := p.1, Count := p.2, Percentage := 0 } : PathSummary)))).take 10 ≠ [] := by
    rw [Ne, List.take_eq_nil_iff]
    push_neg
    refine ⟨by norm_num, ?_⟩
    intro hnil
    have hlen := congrArg List.length hnil
    unfold sortPathsDesc at hlen
    rw [(List.perm_insertionSort pathCountGE _).length_eq] at hlen
    rw [List.length_map, List.length_nil] at hlen
    exact hne (List.length_eq_zero.mp hlen)
  have hpw : ((sortPathsDesc (counts.map (fun p =>
      ({ Path := p.1, Count := p.2, Percentage := 0 } : PathSummary)))).take 10).Pairwise
      pathCountGE :=
    List.Pairwise.sublist (List.take_sublist _ _)
      (List.sorted_insertionSort pathCountGE _)
  have hmain := topStagePath_spec _ htopne hitems hpw
  have hkey : (getTopItems counts 10).map (fun x => x.Count) =
      ((sortPathsDesc (counts.map (fun p =>
        ({ Path := p.1, Count := p.2, Percentage := 0 } : PathSummary)))).take 10).map
        (fun x => x.Count) := topStagePath_counts _
  refine ⟨?_, ?_, ?_, ?_⟩
  · have h1 : (getTopItems counts 10).length = ((sortPathsDesc (counts.map (fun p =>
        ({ Path := p.1, Count := p.2, Percentage := 0 } : PathSummary)))).take 10).length :=
      hmain.1
    rw [h1, List.length_take]
    exact min_le_left _ _
  · exact hmain.2.1
  · intro it hit
    have h3 : it.Percentage = (it.Count : ℚ) /
        (((((sortPathsDesc (counts.map (fun p =>
          ({ Path := p.1, Count := p.2, Percentage := 0 } : PathSummary)))).take 10).map
          (fun x => x.Count)).sum : Int) : ℚ) * 100 := hmain.2.2.1 it hit
    rw [hkey]
    exact h3
  · exact hmain.2.2.2

theorem getTopIPs_spec (counts : List (String × Int))
    (hpos : ∀ p ∈ counts, 1 ≤ p.2) (hne : counts ≠ []) :
    (getTopIPs counts 10).length ≤ 10 ∧
    (getTopIPs counts 10).Pairwise (fun a b => b.Count ≤ a.Count) ∧
    (∀ it ∈ getTopIPs counts 10,
      it.Percentage = (it.Count : ℚ) /
        ((((getTopIPs counts 10).map (fun x => x.Count)).sum : Int) : ℚ) * 100) ∧
    ((getTopIPs counts 10).map (fun x => x.Percentage)).sum = 100 := by
  have hitems : ∀ it ∈ (sortIPsDesc (counts.map (fun p =>
      ({ IP := p.1, Count := p.2, Percentage := 0 } : IPSummary)))).take 10,
      1 ≤ it.Count := by
    intro it hit
    have hmem := List.mem_of_mem_take hit
    have hmem' : it ∈ counts.map (fun p =>
        ({ IP := p.1, Count := p.2, Percentage := 0 } : IPSummary)) :=
      (List.perm_insertionSort ipCountGE _).mem_iff.mp hmem
    obtain ⟨p, hp, rfl⟩ := List.mem_map.mp hmem'
    exact hpos p hp
  have htopne : (sortIPsDesc (counts.map (fun p =>
      ({ IP := p.1, Count := p.2, Percentage := 0 } : IPSummary)))).take 10 ≠ [] := by
    rw [Ne, List.take_eq_nil_iff]
    push_neg
    refine ⟨by norm_num, ?_⟩
    intro hnil
    have hlen := congrArg List.length hnil
    unfold sortIPsDesc at hlen
    rw [(List.perm_insertionSort ipCountGE _).length_eq] at hlen
    rw [List.length_map, List.length_nil] at hlen
    exact hne (List.length_eq_zero.mp hlen)
  have hpw : ((sortIPsDesc (counts.map (fun p =>
      ({ IP := p.1, Count := p.2, Percentage := 0 } : IPSummary)))).take 10).Pairwise
      ipCountGE :=
    List.Pairwise.sublist (List.take_sublist _ _)
      (List.sorted_insertionSort ipCountGE _)
  have hmain := topStageIP_spec _ htopne hitems hpw
  have hkey : (getTopIPs counts 10).map (fun x => x.Count) =
      ((sortIPsDesc (counts.map (fun p =>
        ({ IP := p.1, Count := p.2, Percentage := 0 } : IPSummary)))).take 10).map
        (fun x => x.Count) := topStageIP_counts _
  refine ⟨?_, ?_, ?_, ?_⟩
  · have h1 : (getTopIPs counts 10).length = ((sortIPsDesc (counts.map (fun p =>
        ({ IP := p.1, Count := p.2, Percentage := 0 } : IPSummary)))).take 10).length :=
      hmain.1
    rw [h1, List.length_take]
    exact min_le_left _ _
  · exact hmain.2.1
  · intro it hit
    have h3 : it.Percentage = (it.Count : ℚ) /
        (((((sortIPsDesc (counts.map (fun p =>
          ({ IP := p.1, Count := p.2, Percentage := 0 } : IPSummary)))).take 10).map
          (fun x => x.Count)).sum : Int) : ℚ) * 100 := hmain.2.2.1 it hit
    rw [hkey]
    exact h3
  · exact hmain.2.2.2

/-- C3: for every non-empty entry collection, the top-10 path and top-10
source-IP rankings keep at most 10 items, order them by descending count,
give every returned item the percentage 100 × count / (sum of the counts
of the returned subset), and those percentages sum to exactly 100 — the
denominator is the retained subset's total, not the global entry total,
so the identity holds even when the global total exceeds the subset sum. -/
theorem C3_top_ten (entries : List LogEntry) (hne : entries ≠ []) :
    ((prepareSummary entries).TopPaths.length ≤ 10 ∧
      (prepareSummary entries).TopPaths.Pairwise (fun a b => b.Count ≤ a.Count) ∧
      (∀ it ∈ (prepareSummary entries).TopPaths,
        it.Percentage = (it.Count : ℚ) /
          ((((prepareSummary entries).TopPaths.map (fun x => x.Count)).sum : Int) : ℚ) *
            100) ∧
      ((prepareSummary entries).TopPaths.map (fun x => x.Percentage)).sum = 100) ∧
    ((prepareSummary entries).TopIPs.length ≤ 10 ∧
      (prepareSummary entries).TopIPs.Pairwise (fun a b => b.Count ≤ a.Count) ∧
      (∀ it ∈ (prepareSummary entries).TopIPs,
        it.Percentage = (it.Count : ℚ) /
          ((((prepareSummary entries).TopIPs.map (fun x => x.Count)).sum : Int) : ℚ) *
            100) ∧
      ((prepareSummary entries).TopIPs.map (fun x => x.Percentage)).sum = 100) := by
  constructor
  · have h := getTopItems_spec (countsOf (entries.map (fun e => e.Path)))
      (countsOf_pos (entries.map (fun e => e.Path)))
      (countsOf_ne_nil (entries.map (fun e => e.Path))
        (fun hmap => hne (List.map_eq_nil_iff.mp hmap)))
    exact ⟨h.1, h.2.1, h.2.2.1, h.2.2.2⟩
  · have h := getTopIPs_spec (countsOf (entries.map (fun e => e.SourceIP)))
      (countsOf_pos (entries.map (fun e => e.SourceIP)))
      (countsOf_ne_nil (entries.map (fun e => e.SourceIP))
        (fun hmap => hne (List.map_eq_nil_iff.mp hmap)))
    exact ⟨h.1, h.2.1, h.2.2.1, h.2.2.2⟩

/-- Witness for C3 on the one-entry collection `[mkStatusEntry 200]`. -/
theorem C3_top_ten_witness :
    ([mkStatusEntry 200] : List LogEntry) ≠ [] ∧
    (((prepareSummary [mkStatusEntry 200]).TopPaths.length ≤ 10 ∧
      (prepareSummary [mkStatusEntry 200]).TopPaths.Pairwise
        (fun a b => b.Count ≤ a.Count) ∧
      (∀ it ∈ (prepareSummary [mkStatusEntry 200]).TopPaths,
        it.Percentage = (it.Count : ℚ) /
          ((((prepareSummary [mkStatusEntry 200]).TopPaths.map
            (fun x => x.Count)).sum : Int) : ℚ) * 100) ∧
      ((prepareSummary [mkStatusEntry 200]).TopPaths.map
        (fun x => x.Percentage)).sum = 100) ∧
    ((prepareSummary [mkStatusEntry 200]).TopIPs.length ≤ 10 ∧
      (prepareSummary [mkStatusEntry 200]).TopIPs.Pairwise
        (fun a b => b.Count ≤ a.Count) ∧
      (∀ it ∈ (prepareSummary [mkStatusEntry 200]).TopIPs,
        it.Percentage = (it.Count : ℚ) /
          ((((prepareSummary [mkStatusEntry 200]).TopIPs.map
            (fun x => x.Count)).sum : Int) : ℚ) * 100) ∧
      ((prepareSummary [mkStatusEntry 200]).TopIPs.map
        (fun x => x.Percentage)).sum = 100)) :=
  ⟨by simp, C3_top_ten [mkStatusEntry 200] (by simp)⟩

/-- The counter evolution of a `ProcessFile` call: every dispatched
(non-blank) line bumps either the error counter or the processed
counters according to its parse outcome. -/
def statsAfter (now : Timestamp) (logType : String) :
    List String → StatsState → StatsState
  | [], s => s
  | l :: rest, s =>
    if goTrimSpace l = "" then statsAfter now logType rest s
    else
      match parseLogLine now l logType with
      | .fail _ => statsAfter now logType rest (incrementErrors s)
      | .indexOutOfRange => statsAfter now logType rest s
      | .ok _ => statsAfter now logType rest (incrementProcessed s logType)

theorem incrementProcessed_Errors (s : StatsState) (ty : String) :
    (incrementProcessed s ty).Errors = s.Errors := by
  unfold incrementProcessed
  split <;> rfl

theorem statsAfter_Errors (now : Timestamp) (logType : String)
    (lines : List String) :
    ∀ (s : StatsState) (k : Nat),
      (statsAfter now logType lines s).Errors =
        s.Errors + ((specPerLineErrorsFrom now logType k lines).length : Int) := by
  induction lines with
  | nil => intro s k; simp [statsAfter, specPerLineErrorsFrom]
  | cons l rest ih =>
    intro s k
    by_cases hb : goTrimSpace l = ""
    · rw [statsAfter, if_pos hb, specPerLineErrorsFrom, if_pos hb]
      exact ih s k
    · rw [statsAfter, if_neg hb, specPerLineErrorsFrom, if_neg hb]
      cases hpl : parseLogLine now l logType with
      | fail msg =>
        rw [ih (incrementErrors s) (k + 1)]
        simp [incrementErrors]
        ring
      | indexOutOfRange => exact ih s (k + 1)
      | ok e =>
        rw [ih (incrementProcessed s logType) (k + 1),
          incrementProcessed_Errors]

theorem processLoop_spec (now : Timestamp) (logType : String)
    (lines : List String) :
    ∀ (k : Nat) (st : PFOutcome), st.panicked = false →
      (∀ l ∈ lines, goTrimSpace l ≠ "" →
        parseLogLine now l logType ≠ ParseResult.indexOutOfRange) →
      processLoop now logType lines k st =
        { entries := st.entries ++
            (lines.filter (fun l => !(goTrimSpace l == ""))).filterMap
              (fun l => (parseLogLine now l logType).entry?),
          errors := st.errors ++ specPerLineErrorsFrom now logType k lines,
          stats := statsAfter now logType lines st.stats,
          panicked := false,
          result := st.result } := by
  induction lines with
  | nil =>
    intro k st hpan _
    cases st
    simp only [processLoop, statsAfter, specPerLineErrorsFrom, List.filter_nil,
      List.filterMap_nil, List.append_nil]
    simp_all
  | cons l rest ih =>
    intro k st hpan hp
    rw [processLoop, if_neg (by rw [hpan]; exact Bool.false_ne_true)]
    by_cases hb : goTrimSpace l = ""
    · rw [if_pos hb]
      rw [ih k st hpan (fun x hx hbx => hp x (List.mem_cons_of_mem _ hx) hbx)]
      rw [statsAfter, if_pos hb, specPerLineErrorsFrom, if_pos hb]
      simp [List.filter_cons, hb]
    · rw [if_neg hb]
      have hnp := hp l (List.mem_cons_self _ _) hb
      have hbeq : (goTrimSpace l == "") = false := by
        simp [hb]
      cases hpl : parseLogLine now l logType with
      | indexOutOfRange => exact absurd hpl hnp
      | fail msg =>
        rw [ih (k + 1) (processLine now logType l (k + 1) st)
          (by simp [processLine, hpl, hpan])
          (fun x hx hbx => hp x (List.mem_cons_of_mem _ hx) hbx)]
        rw [statsAfter, if_neg hb, specPerLineErrorsFrom, if_neg hb]
        simp [processLine, hpl, List.filter_cons, hbeq, ParseResult.entry?]
      | ok e =>
        rw [ih (k + 1) (processLine now logType l (k + 1) st)
          (by simp [processLine, hpl, hpan])
          (fun x hx hbx => hp x (List.mem_cons_of_mem _ hx) hbx)]
        rw [statsAfter, if_neg hb, specPerLineErrorsFrom, if_neg hb]
        simp [processLine, hpl, List.filter_cons, hbeq, ParseResult.entry?]

/-- C8: provided no dispatched line hits the out-of-range panic of C1,
`ProcessFile` returns a non-nil error exactly when the stream read itself
failed; a per-line parse failure is never returned — it is delivered to
the error channel annotated with its 1-based number among the dispatched
(non-blank) lines and the underlying cause, the error counter ends up
equal to the number of such failures, and every remaining line is still
processed (the successful parses are all delivered). -/
theorem C8_process_file_contract (now : Timestamp) (lines : List String)
    (readErr : Option String) (logType : String)
    (hp : ∀ l ∈ lines, goTrimSpace l ≠ "" →
      parseLogLine now l logType ≠ ParseResult.indexOutOfRange) :
    (ProcessFile now lines readErr logType).result =
      readErr.map (fun e => "error reading file: " ++ e) ∧
    ((ProcessFile now lines readErr logType).result.isSome ↔ readErr.isSome) ∧
    (ProcessFile now lines readErr logType).panicked = false ∧
    (ProcessFile now lines readErr logType).errors =
      specPerLineErrors now logType lines ∧
    (ProcessFile now lines readErr logType).entries =
      specEntriesFrom now logType lines ∧
    (ProcessFile now lines readErr logType).stats.Errors =
      ((specPerLineErrors now logType lines).length : Int) := by
  have h := processLoop_spec now logType lines 0
    { entries := [], errors := [], stats := initialStats, panicked := false,
      result := none } rfl hp
  unfold ProcessFile
  rw [h]
  refine ⟨rfl, ?_, rfl, ?_, ?_, ?_⟩
  · cases readErr <;> simp
  · simp [specPerLineErrors]
  · simp [specEntriesFrom]
  · show (statsAfter now logType lines initialStats).Errors = _
    rw [statsAfter_Errors now logType lines initialStats 0]
    simp [initialStats, specPerLineErrors]

/-- Witness for C8 on a clean stream with a valid line, a blank line and
a malformed line: no error is returned, the malformed line is recorded as
dispatched line 2 with the format error, the counter shows one failure,
and the valid line's entry is delivered. -/
theorem C8_process_file_contract_witness :
    (∀ l ∈ [apacheScenarioLine, "", "bad line"], goTrimSpace l ≠ "" →
      parseLogLine wallClock l "apache" ≠ ParseResult.indexOutOfRange) ∧
    ((ProcessFile wallClock [apacheScenarioLine, "", "bad line"] none "apache").result =
      (none : Option String).map (fun e => "error reading file: " ++ e) ∧
    ((ProcessFile wallClock [apacheScenarioLine, "", "bad line"] none "apache").result.isSome ↔
      (none : Option String).isSome) ∧
    (ProcessFile wallClock [apacheScenarioLine, "", "bad line"] none "apache").panicked = false ∧
    (ProcessFile wallClock [apacheScenarioLine, "", "bad line"] none "apache").errors =
      specPerLineErrors wallClock "apache" [apacheScenarioLine, "", "bad line"] ∧
    (ProcessFile wallClock [apacheScenarioLine, "", "bad line"] none "apache").entries =
      specEntriesFrom wallClock "apache" [apacheScenarioLine, "", "bad line"] ∧
    (ProcessFile wallClock [apacheScenarioLine, "", "bad line"] none "apache").stats.Errors =
      ((specPerLineErrors wallClock "apache" [apacheScenarioLine, "", "bad line"]).length : Int)) :=
  ⟨by decide,
   C8_process_file_contract wallClock [apacheScenarioLine, "", "bad line"]
     none "apache" (by decide)⟩

end LogAnalyzer
